import Mathlib

set_option maxRecDepth 4000

/-!
Verification development for the envconf repository.

The Go code binds environment variables onto struct fields, after piping
each raw value through a chain of named string translators selected by a
leading marker of the form bang-name-colon.  Strings are modelled as
lists of characters; Go errors are modelled as values of type
Option (List Char) carrying the message, so a Go pair (string, error)
becomes List Char × Option (List Char).
-/

/-- Characters accepted inside a marker name by the pattern used in the
source, namely one or more of the ranges a-z, A-Z, 0-9 and the two
characters underscore and hyphen. -/
def isNameChar (c : Char) : Bool :=
  decide (('a' ≤ c ∧ c ≤ 'z') ∨ ('A' ≤ c ∧ c ≤ 'Z') ∨ ('0' ≤ c ∧ c ≤ '9') ∨ c = '_' ∨ c = '-')

/-- Result of matching the leading marker pattern of reTranslate against a
string: the translator name and the remainder after the colon, or none
when the string has no well-formed leading marker.  Because a colon is
not a name character, the regular expression matches exactly the maximal
run of name characters after the bang, provided it is nonempty and is
followed by a colon. -/
def matchMarker (val : List Char) : Option (List Char × List Char) :=
  match val with
  | [] => none
  | c :: rest =>
    if c = '!' then
      let name := rest.takeWhile isNameChar
      if name = [] then none
      else
        match rest.dropWhile isNameChar with
        | [] => none
        | d :: payload => if d = ':' then some (name, payload) else none
    else none

/-- A translator takes a string and yields the Go pair of output string and
optional error message. -/
def Translator : Type := List Char → List Char × Option (List Char)

/-- Parser holds the registry of named translators.  The Go map is
modelled as an association list with replace-on-insert semantics. -/
structure Parser where
  Translators : List (List Char × Translator)

/-- Lookup of a translator by name in the registry. -/
def lookupTranslator : List (List Char × Translator) → List Char → Option Translator
  | [], _ => none
  | (k, t) :: rest, name => if k = name then some t else lookupTranslator rest name

/-- Insertion with replacement, the effect of a Go map assignment. -/
def insertTranslator : List (List Char × Translator) → List Char → Translator → List (List Char × Translator)
  | [], name, f => [(name, f)]
  | (k, t) :: rest, name, f =>
    if k = name then (name, f) :: rest else (k, t) :: insertTranslator rest name f

/-- New returns a parser with an empty translator registry. -/
def New : Parser := Parser.mk []

/-- RegisterTranslatorFunc adds a translator under the given name,
replacing any existing one. -/
def Parser.RegisterTranslatorFunc (p : Parser) (name : List Char) (f : Translator) : Parser :=
  Parser.mk (insertTranslator p.Translators name f)

/-- Error message produced when a marker names an unregistered translator. -/
def noTranslatorMsg (name : List Char) : List Char :=
  (("no translator named ").data) ++ name

/-- Translate, with an explicit fuel bound on the recursion depth since the
source recursion has no depth guard.  Fuel exhaustion yields none; a
value of some (out, err) is the Go return pair.  The branches mirror the
source in order: the escape prefix backslash-bang, then the marker match,
then registry lookup, translator invocation and recursive re-translation
of its output. -/
def Parser.TranslateF (p : Parser) : Nat → List Char → Option (List Char × Option (List Char))
  | 0, _ => none
  | n + 1, val =>
    if val.take 2 = ['\\', '!'] then some ('!' :: val.drop 2, none)
    else
      match matchMarker val with
      | none => some (val, none)
      | some (name, input) =>
        match lookupTranslator p.Translators name with
        | some tr =>
          match tr input with
          | (out, some e) => some (out, some e)
          | (out, none) => p.TranslateF n out
        | none => some ([], some (noTranslatorMsg name))

/-- Value of one base64 alphabet character in the URL-safe alphabet. -/
def base64Val (c : Char) : Option Nat :=
  if 'A' ≤ c ∧ c ≤ 'Z' then some (c.toNat - 65)
  else if 'a' ≤ c ∧ c ≤ 'z' then some (c.toNat - 97 + 26)
  else if '0' ≤ c ∧ c ≤ '9' then some (c.toNat - 48 + 52)
  else if c = '-' then some 62
  else if c = '_' then some 63
  else none

/-- Decoding of URL-safe base64 in four-character quanta with trailing
padding, after the standard library decoder the source calls.  Line
breaks inside the input, which the Go decoder skips, are not modelled;
none of the inputs in this development contain them. -/
def b64DecodeGroups : List Char → Option (List Nat)
  | [] => some []
  | c1 :: c2 :: c3 :: c4 :: rest =>
    match base64Val c1, base64Val c2 with
    | some v1, some v2 =>
      if c3 = '=' then
        if c4 = '=' ∧ rest = [] then some [v1 * 4 + v2 / 16] else none
      else
        match base64Val c3 with
        | some v3 =>
          if c4 = '=' then
            if rest = [] then some [v1 * 4 + v2 / 16, (v2 % 16) * 16 + v3 / 4] else none
          else
            match base64Val c4, b64DecodeGroups rest with
            | some v4, some t =>
              some ([v1 * 4 + v2 / 16, (v2 % 16) * 16 + v3 / 4, (v3 % 4) * 64 + v4] ++ t)
            | _, _ => none
        | none => none
    | _, _ => none
  | _ => none

/-- Base64Translator decodes a URL base64 string and reinterprets the
bytes as text; on bad input it returns the empty string and an error.
The byte offset that the Go error message carries is not modelled. -/
def Base64Translator : Translator := fun input =>
  match b64DecodeGroups input with
  | some bytes => (bytes.map Char.ofNat, none)
  | none => ([], some (("illegal base64 data").data))

/-- DefaultParser carries the single built-in translator, registered under
the name base64. -/
def DefaultParser : Parser :=
  Parser.mk [((("base64").data), Base64Translator)]

/-- Lowercasing of a single character over the ASCII range, the part of
the Unicode lowering the source relies on for its boolean coercion. -/
def goToLowerChar (c : Char) : Char :=
  if 'A' ≤ c ∧ c ≤ 'Z' then Char.ofNat (c.toNat + 32) else c

/-- The boolean coercion of the source: true exactly when the lowercased
value starts with the letter t. -/
def hasPrefixT (s : List Char) : Bool :=
  match s with
  | c :: _ => goToLowerChar c = 't'
  | [] => false

/-- Whitespace characters trimmed by the source when splitting list
values, covering the Latin-1 part of the Unicode space class used by the
inputs of this development. -/
def goIsSpace (c : Char) : Bool :=
  decide (c = ' ' ∨ c = '\t' ∨ c = '\n' ∨ c = '\x0b' ∨ c = '\x0c' ∨ c = '\r'
    ∨ c = '\x85' ∨ c = '\xa0')

/-- Trimming of surrounding whitespace from a piece. -/
def trimSpace (s : List Char) : List Char :=
  ((s.dropWhile goIsSpace).reverse.dropWhile goIsSpace).reverse

/-- Splitting on commas, after the split the source performs; the empty
string yields one empty piece, and every comma separates two pieces. -/
def splitComma : List Char → List (List Char)
  | [] => [[]]
  | c :: rest =>
    if c = ',' then [] :: splitComma rest
    else
      match splitComma rest with
      | g :: gs => (c :: g) :: gs
      | [] => [[c]]

/-- Accumulation loop of the slice branch: trim each piece and drop the
pieces that trim to nothing, keeping the order of the rest. -/
def collectSlice : List (List Char) → List (List Char)
  | [] => []
  | v :: rest =>
    let stripped := trimSpace v
    if stripped = [] then collectSlice rest else stripped :: collectSlice rest

/-- Static types of the struct fields this development binds.  A custom
type carries its rendered Go name and its FromEnvString method; a struct
type carries its name and, when the type opts in, such a method as well.
The numeric scalar branches of the source dispatch are outside the scope
of this development and are not modelled. -/
inductive GoType where
  | tString
  | tBool
  | tStringSlice
  | tCustom (name : List Char) (fromEnv : List Char → Except (List Char) (List Char))
  | tStruct (name : List Char) (fromEnv : Option (List Char → Except (List Char) (List Char)))
  | tPtr (elem : GoType)
  | tOther (name : List Char)

/-- Dynamic values held by fields.  A struct value and a custom value
carry the abstract content their decoder produced; a pointer value is
either nil or carries the value it points to. -/
inductive Value where
  | vString (s : List Char)
  | vBool (b : Bool)
  | vStrSlice (xs : List (List Char))
  | vCustom (s : List Char)
  | vStruct (s : List Char)
  | vPtr (v : Option Value)
  | vOther

/-- Zero value of each modelled type, what a fresh allocation holds. -/
def zeroValue : GoType → Value
  | .tString => .vString []
  | .tBool => .vBool false
  | .tStringSlice => .vStrSlice []
  | .tCustom _ _ => .vCustom []
  | .tStruct _ _ => .vStruct []
  | .tPtr _ => .vPtr none
  | .tOther _ => .vOther

/-- Rendering of a type name, feeding the unsupported-type message. -/
def typeName : GoType → List Char
  | .tString => (("string").data)
  | .tBool => (("bool").data)
  | .tStringSlice => (("[]string").data)
  | .tCustom name _ => name
  | .tStruct name _ => name
  | .tPtr elem => '*' :: typeName elem
  | .tOther name => name

/-- Struct kinds, the test of the reflection dispatch that routes a field
into the JSON branch. -/
def isStructKind : GoType → Bool
  | .tStruct _ _ => true
  | _ => false

/-- SetFromString receives the address of a field, so the reflected type
it dispatches on is the pointer to the given type; the unsupported-type
message therefore shows one more star than the type name.  The
FromEnvString capability check comes first, then the fixed dispatch; a
type matching neither is unsupported.  A pointer-typed field hands a
double pointer here, which has no method and matches no case. -/
def SetFromString (t : GoType) (stringVal : List Char) : Except (List Char) Value :=
  match t with
  | .tCustom _ fromEnv =>
    match fromEnv stringVal with
    | .ok c => .ok (.vCustom c)
    | .error e => .error e
  | .tStruct _ (some fromEnv) =>
    match fromEnv stringVal with
    | .ok c => .ok (.vStruct c)
    | .error e => .error e
  | .tString => .ok (.vString stringVal)
  | .tBool => .ok (.vBool (hasPrefixT stringVal))
  | .tStringSlice => .ok (.vStrSlice (collectSlice (splitComma stringVal)))
  | t => .error ((("unsupported type *").data) ++ typeName t)

/-- Tag metadata of one field: the env key, and the optional literals of
the default and required keys.  The raw tag string that the Go error
formatting prints is rendered from these by renderTag below. -/
structure Tag where
  env : List Char
  dflt : Option (List Char)
  req : Option (List Char)

/-- One struct field: its tag, its static type and its current value. -/
structure StructField where
  tag : Tag
  typ : GoType
  val : Value

/-- Rendering of the raw tag string in source order of its keys, the
string the required-value error interpolates. -/
def renderTag (tag : Tag) : List Char :=
  (("env:\"").data) ++ tag.env ++ (("\"").data)
    ++ (match tag.dflt with
        | some d => ((" default:\"").data) ++ d ++ (("\"").data)
        | none => [])
    ++ (match tag.req with
        | some r => ((" required:\"").data) ++ r ++ (("\"").data)
        | none => [])

/-- Message of the required-value error, interpolating the whole tag. -/
def requiredMsg (tag : Tag) : List Char :=
  (("Required ENV var not set: ").data) ++ renderTag tag

/-- Wrapping of a field-level error with the env key of the field. -/
def inFieldMsg (key e : List Char) : List Char :=
  (("In field ").data) ++ key ++ ((": ").data) ++ e

/-- Message of the struct branch when the value is not JSON-shaped. -/
def structFieldsMsg : List Char :=
  (("struct fields should be set using JSON strings").data)

/-- Test of the JSON precondition, a leading opening brace. -/
def hasBracePrefix (s : List Char) : Bool :=
  match s with
  | c :: _ => c = '{'
  | [] => false

/-- Translation and dispatch of one resolved value into one field: the
part of the binding loop after the value is resolved.  The JSON decoding
of the standard library is external to this repository and passed in as
jsonDec, returning the decoded struct content or an error; its error is
returned unwrapped, as in the source.  For a pointer field the source
first overwrites the field with a freshly allocated element and then
dispatches on the element kind, while the address it hands to
SetFromString is still that of the original field, hence a double
pointer. -/
def bindField (p : Parser) (jsonDec : List Char → Except (List Char) (List Char))
    (fuel : Nat) (f : StructField) (envVal : List Char) : Option (StructField × Option (List Char)) :=
  match p.TranslateF fuel envVal with
  | none => none
  | some (_, some e) => some (f, some (inFieldMsg f.tag.env e))
  | some (tv, none) =>
    match f.typ with
    | .tPtr elem =>
      let f1 := StructField.mk f.tag f.typ (.vPtr (some (zeroValue elem)))
      if isStructKind elem then
        if hasBracePrefix tv then
          match jsonDec tv with
          | .ok content => some (StructField.mk f.tag f.typ (.vPtr (some (.vStruct content))), none)
          | .error e => some (f1, some e)
        else some (f1, some (inFieldMsg f.tag.env structFieldsMsg))
      else
        match SetFromString f.typ tv with
        | .ok v => some (StructField.mk f.tag f.typ v, none)
        | .error e => some (f1, some (inFieldMsg f.tag.env e))
    | t =>
      if isStructKind t then
        if hasBracePrefix tv then
          match jsonDec tv with
          | .ok content => some (StructField.mk f.tag f.typ (.vStruct content), none)
          | .error e => some (f, some e)
        else some (f, some (inFieldMsg f.tag.env structFieldsMsg))
      else
        match SetFromString t tv with
        | .ok v => some (StructField.mk f.tag f.typ v, none)
        | .error e => some (f, some (inFieldMsg f.tag.env e))

/-- Resolution of one field: skip fields without an env key; on an empty
environment value fall back to the default literal, else skip when the
required key holds exactly the literal false, else fail with the
required-value error; a nonempty value goes straight to binding.  The
environment is the external lookup, empty meaning absent or empty. -/
def parseField (p : Parser) (jsonDec : List Char → Except (List Char) (List Char))
    (env : List Char → List Char) (fuel : Nat) (f : StructField) : Option (StructField × Option (List Char)) :=
  if f.tag.env = [] then some (f, none)
  else
    let envVal := env f.tag.env
    if envVal = [] then
      match f.tag.dflt with
      | some d => bindField p jsonDec fuel f d
      | none =>
        match f.tag.req with
        | some r =>
          if r = (("false").data) then some (f, none) else some (f, some (requiredMsg f.tag))
        | none => some (f, some (requiredMsg f.tag))
    else bindField p jsonDec fuel f envVal

/-- The binding pass over the fields in declaration order: each field is
processed by parseField; the first error stops the pass, the fields
after it stay as they are, and the fields before it keep their new
values. -/
def parseFields (p : Parser) (jsonDec : List Char → Except (List Char) (List Char))
    (env : List Char → List Char) (fuel : Nat) : List StructField → Option (List StructField × Option (List Char))
  | [] => some ([], none)
  | f :: rest =>
    match parseField p jsonDec env fuel f with
    | none => none
    | some (f1, some e) => some (f1 :: rest, some e)
    | some (f1, none) =>
      match parseFields p jsonDec env fuel rest with
      | none => none
      | some (rest1, e) => some (f1 :: rest1, e)

/-- Parse runs the binding pass with the registry of the parser. -/
def Parser.Parse (p : Parser) (jsonDec : List Char → Except (List Char) (List Char))
    (env : List Char → List Char) (fuel : Nat) (fields : List StructField) :
    Option (List StructField × Option (List Char)) :=
  parseFields p jsonDec env fuel fields

/-- Registry with two prefixing translators, whose outputs always start
with the letters A and B respectively and therefore never carry a
leading marker nor the escape prefix. -/
def parserC1 : Parser :=
  Parser.mk [((("a").data), fun s => ('A' :: s, none)),
             ((("b").data), fun s => ('B' :: s, none))]

/-- Stub JSON decoder for concrete instances whose execution never
reaches the decoding call. -/
def jdStub : List Char → Except (List Char) (List Char) := fun _ => Except.error []

/-- Field used by the counterexample to claim C2: a struct-kind type that
does implement the capability method, here one that accepts any string. -/
def fieldC2 : StructField :=
  StructField.mk (Tag.mk (("T_JSON").data) none none)
    (.tStruct (("envconf.T").data) (some (fun s => Except.ok s))) (.vStruct [])

/-- Helper: a string with no escape prefix and no leading marker is
returned unchanged by any amount of fuel. -/
theorem translateF_plain (p : Parser) (n : Nat) (val : List Char)
    (hesc : val.take 2 ≠ ['\\', '!']) (hm : matchMarker val = none) :
    p.TranslateF (n + 1) val = some (val, none) := by
  simp [Parser.TranslateF, hesc, hm]

/-- Helper: a run of name characters followed by a colon splits exactly at
the colon under takeWhile and dropWhile. -/
theorem takeWhile_nameChars : ∀ (na : List Char), (∀ c ∈ na, isNameChar c = true) →
    ∀ rest : List Char,
      (na ++ ':' :: rest).takeWhile isNameChar = na ∧
      (na ++ ':' :: rest).dropWhile isNameChar = ':' :: rest
  | [], _, rest => by
    have h1 : isNameChar ':' = false := by decide
    simp [List.takeWhile_cons, List.dropWhile_cons, h1]
  | c :: tl, h, rest => by
    have hc : isNameChar c = true := h c (by simp)
    have htl : ∀ x ∈ tl, isNameChar x = true := fun x hx => h x (by simp [hx])
    have ih := takeWhile_nameChars tl htl rest
    simp [List.takeWhile_cons, List.dropWhile_cons, hc, ih.1, ih.2]

/-- Helper: the marker pattern matches a bang, a nonempty run of name
characters and a colon, splitting off the remainder. -/
theorem matchMarker_marker (na rest : List Char) (hne : na ≠ [])
    (h : ∀ c ∈ na, isNameChar c = true) :
    matchMarker ('!' :: (na ++ ':' :: rest)) = some (na, rest) := by
  have ht := takeWhile_nameChars na h rest
  simp [matchMarker, ht.1, ht.2, hne]

/-- Claim C8: for every string x and every registry, translating the
two-character escape prefix followed by x yields a bang followed by x
with no error, and the result is final even when x itself begins with a
well-formed marker, since the escape branch returns without re-scanning. -/
theorem c8_escape_prefix (p : Parser) (n : Nat) (x : List Char) :
    p.TranslateF (n + 1) ('\\' :: '!' :: x) = some ('!' :: x, none) := by
  simp [Parser.TranslateF]

/-- Claim C4, counterexample: the string backslash-bang-f-o-o does not
match the leading marker grammar, yet Translate does not return it
unchanged: the escape branch rewrites it, so the claim as stated fails
at this input. -/
theorem c4_counterexample :
    matchMarker (("\\!foo").data) = none ∧
    New.TranslateF 1 (("\\!foo").data) = some ((("!foo").data), none) ∧
    (("!foo").data) ≠ (("\\!foo").data) :=
  ⟨by decide, by decide, by decide⟩

/-- Claim C4 (amended): for every string s that neither begins with the
two-character escape prefix nor matches the leading marker grammar,
Translate returns s unchanged with no error, for any registry; this
covers strings with a bang not at position zero and strings with invalid
name characters. -/
theorem c4_no_marker_unchanged (p : Parser) (n : Nat) (s : List Char)
    (hesc : s.take 2 ≠ ['\\', '!']) (hm : matchMarker s = none) :
    p.TranslateF (n + 1) s = some (s, none) :=
  translateF_plain p n s hesc hm

/-- Witness for the amended claim C4 at a concrete input with a bang not
at position zero. -/
theorem c4_no_marker_unchanged_witness :
    New.TranslateF 1 (("not!foo").data) = some ((("not!foo").data), none) :=
  c4_no_marker_unchanged New 0 (("not!foo").data) (by decide) (by decide)

/-- Claim C7: when the input begins with a well-formed marker whose name
is not registered, Translate returns the empty string together with an
error message that contains the attempted name; the conclusion holds for
every registry in which the lookup fails, so no translator of the
registry is consulted on the way. -/
theorem c7_no_such_translator (p : Parser) (n : Nat) (val name input : List Char)
    (hesc : val.take 2 ≠ ['\\', '!'])
    (hm : matchMarker val = some (name, input))
    (hlook : lookupTranslator p.Translators name = none) :
    p.TranslateF (n + 1) val = some ([], some (noTranslatorMsg name)) ∧
    name <:+ noTranslatorMsg name := by
  constructor
  · simp [Parser.TranslateF, hesc, hm, hlook]
  · exact List.suffix_append (("no translator named ").data) name

/-- Witness for claim C7 on the empty registry and the input used by the
repository test of the unregistered name. -/
theorem c7_no_such_translator_witness :
    New.TranslateF 1 (("!asdf:thing").data)
      = some ([], some (noTranslatorMsg (("asdf").data))) ∧
    (("asdf").data) <:+ noTranslatorMsg (("asdf").data) :=
  c7_no_such_translator New 0 (("!asdf:thing").data) (("asdf").data) (("thing").data)
    (by decide) (by decide) rfl

/-- Claim C1, counterexample: with the registry parserC1 both translators
produce outputs with no further leading markers, yet translating the
nested marker string does not give a applied to b applied to the
payload: the outer translator consumes the entire remainder including
the inner marker text, whose result then has no leading marker, so the
inner translator is never applied.  The second and third conjuncts check
the concrete outputs involved are marker-free, instantiating the premise
of the claim, and the last conjunct separates the actual result from the
claimed one. -/
theorem c1_counterexample :
    parserC1.TranslateF 2 (("!a:!b:pay").data) = some ((("A!b:pay").data), none) ∧
    matchMarker ('A' :: (("!b:pay").data)) = none ∧
    matchMarker ('B' :: (("pay").data)) = none ∧
    (("A!b:pay").data) ≠ ('A' :: ('B' :: (("pay").data))) :=
  ⟨by decide, by decide, by decide, by decide⟩

/-- Claim C1 (amended): translating a nested marker string applies the
outer translator to the entire remainder, inner marker text included;
when the output of that single application has no further leading marker
and no escape prefix, it is the final result, with no error, and the
inner translator is never invoked: the conclusion does not depend on a
translator registered under the inner name at all.  The equality with
outer after inner on the payload claimed by the specification holds only
in special cases such as the repeated suffix-appending translator of the
repository test. -/
theorem c1_outer_first (p : Parser) (n : Nat) (na nb payload out : List Char) (ta : Translator)
    (hna : na ≠ []) (hchars : ∀ c ∈ na, isNameChar c = true)
    (hlook : lookupTranslator p.Translators na = some ta)
    (hout : ta ('!' :: (nb ++ ':' :: payload)) = (out, none))
    (hesc : out.take 2 ≠ ['\\', '!'])
    (hm : matchMarker out = none) :
    p.TranslateF (n + 2) ('!' :: (na ++ ':' :: ('!' :: (nb ++ ':' :: payload))))
      = some (out, none) := by
  have hmm := matchMarker_marker na ('!' :: (nb ++ ':' :: payload)) hna hchars
  have h1 : ('!' :: (na ++ ':' :: ('!' :: (nb ++ ':' :: payload)))).take 2 ≠ ['\\', '!'] := by
    cases na with
    | nil => exact absurd rfl hna
    | cons c tl => simp [List.take]
  have hstep : p.TranslateF ((n + 1) + 1) ('!' :: (na ++ ':' :: ('!' :: (nb ++ ':' :: payload))))
      = p.TranslateF (n + 1) out := by
    simp [Parser.TranslateF, h1, hmm, hlook, hout]
  exact hstep.trans (translateF_plain p n out hesc hm)

/-- Witness for the amended claim C1: with parserC1 the nested marker
string translates to the output of the outer translator on the whole
remainder, at concrete inputs. -/
theorem c1_outer_first_witness :
    parserC1.TranslateF 2 (("!a:!b:pay").data) = some (('A' :: (("!b:pay").data)), none) :=
  c1_outer_first parserC1 0 (("a").data) (("b").data) (("pay").data)
    ('A' :: (("!b:pay").data)) (fun s => ('A' :: s, none))
    (by decide) (by decide) rfl rfl (by decide) (by decide)

/-- Helper: the accumulation loop of the slice branch equals the mapped
and filtered form of the specification: trim every piece, keep the
nonempty ones in order. -/
theorem collectSlice_eq : ∀ l : List (List Char),
    collectSlice l = (l.map trimSpace).filter (fun x => decide (x ≠ []))
  | [] => rfl
  | v :: rest => by
    by_cases h : trimSpace v = []
    · simp [collectSlice, h, collectSlice_eq rest]
    · simp [collectSlice, h, collectSlice_eq rest]

/-- Helper: looking up the name just registered finds the new translator. -/
theorem lookup_insert_self : ∀ (l : List (List Char × Translator)) (name : List Char)
    (f : Translator), lookupTranslator (insertTranslator l name f) name = some f
  | [], name, f => by simp [insertTranslator, lookupTranslator]
  | (k, t) :: rest, name, f => by
    by_cases hk : k = name
    · simp [insertTranslator, lookupTranslator, hk]
    · simp [insertTranslator, lookupTranslator, hk, lookup_insert_self rest name f]

/-- Helper: registration leaves every other name untouched. -/
theorem lookup_insert_other : ∀ (l : List (List Char × Translator)) (name : List Char)
    (f : Translator) (m : List Char), m ≠ name →
    lookupTranslator (insertTranslator l name f) m = lookupTranslator l m
  | [], name, f, m, hm => by
    simp [insertTranslator, lookupTranslator, Ne.symm hm]
  | (k, t) :: rest, name, f, m, hm => by
    by_cases hk : k = name
    · subst hk
      simp [insertTranslator, lookupTranslator, Ne.symm hm]
    · by_cases hkm : k = m
      · simp [insertTranslator, lookupTranslator, hk, hkm, hm]
      · simp [insertTranslator, lookupTranslator, hk, hkm,
          lookup_insert_other rest name f m hm]

/-- Claim C5: the registry of a fresh parser is empty, the default parser
holds exactly the one built-in base64 translator, and registration only
binds the given name, leaving every other name as before. -/
theorem c5_registry :
    New.Translators = [] ∧
    DefaultParser.Translators = [((("base64").data), Base64Translator)] ∧
    (∀ (p : Parser) (name : List Char) (f : Translator),
      lookupTranslator (p.RegisterTranslatorFunc name f).Translators name = some f) ∧
    (∀ (p : Parser) (name : List Char) (f : Translator) (m : List Char), m ≠ name →
      lookupTranslator (p.RegisterTranslatorFunc name f).Translators m
        = lookupTranslator p.Translators m) :=
  ⟨rfl, rfl, fun p name f => lookup_insert_self p.Translators name f,
   fun p name f m hm => lookup_insert_other p.Translators name f m hm⟩

/-- Witness for claim C5 at a concrete registration over the fresh
registry. -/
theorem c5_registry_witness :
    New.Translators = [] ∧
    lookupTranslator (New.RegisterTranslatorFunc (("hello").data)
        (fun s => (s, none))).Translators (("hello").data)
      = some (fun s => (s, none)) ∧
    lookupTranslator (New.RegisterTranslatorFunc (("hello").data)
        (fun s => (s, none))).Translators (("base64").data)
      = lookupTranslator New.Translators (("base64").data) :=
  ⟨c5_registry.1, c5_registry.2.2.1 New (("hello").data) (fun s => (s, none)),
   c5_registry.2.2.2 New (("hello").data) (fun s => (s, none)) (("base64").data) (by decide)⟩

/-- Claim C3: resolution of a field whose environment value is absent or
empty.  With a default literal, binding proceeds on that literal.  With
no default and the required key holding exactly the literal false, the
field is skipped unchanged with no error and the pass continues with the
remaining fields.  Otherwise the pass fails with the required-value
error, whose message interpolates the tag and therefore contains the
source key. -/
theorem c3_required_semantics (p : Parser)
    (jd : List Char → Except (List Char) (List Char)) (env : List Char → List Char)
    (fuel : Nat) (tag : Tag) (typ : GoType) (val : Value)
    (henv : tag.env ≠ []) (habsent : env tag.env = []) :
    (∀ d, tag.dflt = some d →
        parseField p jd env fuel (StructField.mk tag typ val)
          = bindField p jd fuel (StructField.mk tag typ val) d) ∧
    (tag.dflt = none → tag.req = some (("false").data) →
        parseField p jd env fuel (StructField.mk tag typ val)
          = some (StructField.mk tag typ val, none) ∧
        ∀ rest rest1 oe, parseFields p jd env fuel rest = some (rest1, oe) →
          parseFields p jd env fuel (StructField.mk tag typ val :: rest)
            = some (StructField.mk tag typ val :: rest1, oe)) ∧
    (tag.dflt = none → (∀ r, tag.req = some r → r ≠ (("false").data)) →
        parseField p jd env fuel (StructField.mk tag typ val)
          = some (StructField.mk tag typ val, some (requiredMsg tag)) ∧
        tag.env <:+: requiredMsg tag) := by
  refine ⟨?_, ?_, ?_⟩
  · intro d hd
    simp [parseField, henv, habsent, hd]
  · intro hd hr
    have h1 : parseField p jd env fuel (StructField.mk tag typ val)
        = some (StructField.mk tag typ val, none) := by
      simp [parseField, henv, habsent, hd, hr]
    exact ⟨h1, fun rest rest1 oe hrest => by simp [parseFields, h1, hrest]⟩
  · intro hd hr
    constructor
    · cases hreq : tag.req with
      | none => simp [parseField, henv, habsent, hd, hreq]
      | some r =>
        have hrf : r ≠ (("false").data) := hr r hreq
        simp [parseField, henv, habsent, hd, hreq, hrf]
    · refine ⟨(("Required ENV var not set: ").data) ++ (("env:\"").data),
        (("\"").data)
          ++ (match tag.dflt with
              | some d => ((" default:\"").data) ++ d ++ (("\"").data)
              | none => ([] : List Char))
          ++ (match tag.req with
              | some r => ((" required:\"").data) ++ r ++ (("\"").data)
              | none => ([] : List Char)), ?_⟩
      simp [requiredMsg, renderTag, List.append_assoc]

/-- Witness for claim C3, instantiating the three branches at concrete
tags with an environment that holds no value for them. -/
theorem c3_required_semantics_witness :
    (parseField New jdStub (fun _ => []) 1
        (StructField.mk (Tag.mk (("T_D").data) (some (("dv").data)) none) .tString (.vString []))
      = bindField New jdStub 1
        (StructField.mk (Tag.mk (("T_D").data) (some (("dv").data)) none) .tString (.vString []))
        (("dv").data)) ∧
    (parseField New jdStub (fun _ => []) 1
        (StructField.mk (Tag.mk (("T_O").data) none (some (("false").data))) .tString (.vString []))
      = some (StructField.mk (Tag.mk (("T_O").data) none (some (("false").data))) .tString
          (.vString []), none)) ∧
    (parseField New jdStub (fun _ => []) 1
        (StructField.mk (Tag.mk (("T_R").data) none none) .tString (.vString []))
      = some (StructField.mk (Tag.mk (("T_R").data) none none) .tString (.vString []),
          some (requiredMsg (Tag.mk (("T_R").data) none none))) ∧
      (("T_R").data) <:+: requiredMsg (Tag.mk (("T_R").data) none none)) :=
  ⟨(c3_required_semantics New jdStub (fun _ => []) 1
      (Tag.mk (("T_D").data) (some (("dv").data)) none) .tString (.vString [])
      (by decide) rfl).1 (("dv").data) rfl,
   ((c3_required_semantics New jdStub (fun _ => []) 1
      (Tag.mk (("T_O").data) none (some (("false").data))) .tString (.vString [])
      (by decide) rfl).2.1 rfl rfl).1,
   (c3_required_semantics New jdStub (fun _ => []) 1
      (Tag.mk (("T_R").data) none none) .tString (.vString [])
      (by decide) rfl).2.2 rfl (fun r hr => by simp at hr)⟩

/-- Claim C6: a field of slice-of-text type binds the environment value
split on commas, with every piece trimmed of surrounding whitespace,
the empty pieces dropped and the remaining pieces in their original
order; stated through the mapped and filtered form of that description,
which the accumulation loop of the source is proved to equal. -/
theorem c6_slice_semantics (p : Parser)
    (jd : List Char → Except (List Char) (List Char)) (env : List Char → List Char)
    (n : Nat) (tag : Tag) (val : Value) (s : List Char)
    (henv : tag.env ≠ []) (hs : env tag.env = s) (hne : s ≠ [])
    (hesc : s.take 2 ≠ ['\\', '!']) (hm : matchMarker s = none) :
    parseField p jd env (n + 1) (StructField.mk tag .tStringSlice val)
      = some (StructField.mk tag .tStringSlice
          (.vStrSlice (((splitComma s).map trimSpace).filter (fun x => decide (x ≠ [])))),
          none) := by
  have ht := translateF_plain p n s hesc hm
  simp [parseField, henv, hs, hne, bindField, ht, isStructKind, SetFromString, collectSlice_eq]

/-- Witness for claim C6 at the concrete value of the repository test,
yielding the two trimmed pieces. -/
theorem c6_slice_semantics_witness :
    parseField New jdStub (fun k => if k = (("T_SLICE").data) then (("val1, val2").data) else [])
        1 (StructField.mk (Tag.mk (("T_SLICE").data) none none) .tStringSlice (.vStrSlice []))
      = some (StructField.mk (Tag.mk (("T_SLICE").data) none none) .tStringSlice
          (.vStrSlice [(("val1").data), (("val2").data)]), none) :=
  c6_slice_semantics New jdStub
    (fun k => if k = (("T_SLICE").data) then (("val1, val2").data) else [])
    0 (Tag.mk (("T_SLICE").data) none none) (.vStrSlice []) (("val1, val2").data)
    (by decide) rfl (by decide) (by decide) (by decide)

/-- Claim C2 (amended): a field whose type carries the FromEnvString
capability and whose reflected kind is not a struct has its translated
value delegated entirely to that method, its error, if any, fatal for
the field; but a field of struct kind is routed into the JSON branch
before SetFromString is ever consulted, so for such a field the method
is not invoked at all: on a value without the JSON object prefix the
pass fails with the struct-fields message for every capability method
alike. -/
theorem c2_custom_delegation (p : Parser)
    (jd : List Char → Except (List Char) (List Char)) (env : List Char → List Char)
    (n : Nat) (tag : Tag) (val : Value) (name : List Char)
    (fromEnv : List Char → Except (List Char) (List Char)) (s : List Char)
    (henv : tag.env ≠ []) (hs : env tag.env = s) (hne : s ≠ [])
    (hesc : s.take 2 ≠ ['\\', '!']) (hm : matchMarker s = none) :
    (parseField p jd env (n + 1) (StructField.mk tag (.tCustom name fromEnv) val)
       = match fromEnv s with
         | .ok c => some (StructField.mk tag (.tCustom name fromEnv) (.vCustom c), none)
         | .error e => some (StructField.mk tag (.tCustom name fromEnv) val,
             some (inFieldMsg tag.env e))) ∧
    (hasBracePrefix s = false →
      parseField p jd env (n + 1) (StructField.mk tag (.tStruct name (some fromEnv)) val)
        = some (StructField.mk tag (.tStruct name (some fromEnv)) val,
            some (inFieldMsg tag.env structFieldsMsg))) := by
  have ht := translateF_plain p n s hesc hm
  constructor
  · cases hfe : fromEnv s with
    | ok c => simp [parseField, henv, hs, hne, bindField, ht, isStructKind, SetFromString, hfe]
    | error e => simp [parseField, henv, hs, hne, bindField, ht, isStructKind, SetFromString, hfe]
  · intro hbrace
    simp [parseField, henv, hs, hne, bindField, ht, isStructKind, hbrace]

/-- Claim C2, counterexample: on the field fieldC2, whose type implements
FromEnvString and whose kind is a struct, the binding pass applies the
JSON branch and fails on a value without the object prefix, even though
SetFromString would have delegated to the always-succeeding method; so
the delegation does not take precedence over the struct handling. -/
theorem c2_counterexample :
    parseField New jdStub (fun k => if k = (("T_JSON").data) then (("hello").data) else []) 1 fieldC2
      = some (fieldC2, some (inFieldMsg (("T_JSON").data) structFieldsMsg)) ∧
    SetFromString (.tStruct (("envconf.T").data) (some (fun s => Except.ok s))) (("hello").data)
      = Except.ok (.vStruct (("hello").data)) ∧
    ¬ parseField New jdStub (fun k => if k = (("T_JSON").data) then (("hello").data) else [])
        1 fieldC2
      = some (StructField.mk (Tag.mk (("T_JSON").data) none none)
          (.tStruct (("envconf.T").data) (some (fun s => Except.ok s)))
          (.vStruct (("hello").data)), none) := by
  have h1 : parseField New jdStub
      (fun k => if k = (("T_JSON").data) then (("hello").data) else []) 1 fieldC2
      = some (fieldC2, some (inFieldMsg (("T_JSON").data) structFieldsMsg)) := rfl
  refine ⟨h1, rfl, fun h => ?_⟩
  have h2 := h1.symm.trans h
  simp [fieldC2] at h2

/-- Witness for the amended claim C2, with a concrete capability method
that tags its input, on a non-struct custom type and on a struct-kind
type carrying the same method. -/
theorem c2_custom_delegation_witness :
    (parseField New jdStub (fun k => if k = (("T_HEX").data) then (("cafe").data) else []) 1
        (StructField.mk (Tag.mk (("T_HEX").data) none none)
          (.tCustom (("envconf.Hex").data) (fun s => Except.ok ('h' :: s))) (.vCustom []))
       = match (fun s => (Except.ok ('h' :: s) : Except (List Char) (List Char))) (("cafe").data) with
         | .ok c => some (StructField.mk (Tag.mk (("T_HEX").data) none none)
             (.tCustom (("envconf.Hex").data) (fun s => Except.ok ('h' :: s))) (.vCustom c), none)
         | .error e => some (StructField.mk (Tag.mk (("T_HEX").data) none none)
             (.tCustom (("envconf.Hex").data) (fun s => Except.ok ('h' :: s))) (.vCustom []),
             some (inFieldMsg (("T_HEX").data) e))) ∧
    (hasBracePrefix (("cafe").data) = false →
      parseField New jdStub (fun k => if k = (("T_HEX").data) then (("cafe").data) else []) 1
          (StructField.mk (Tag.mk (("T_HEX").data) none none)
            (.tStruct (("envconf.Hex").data) (some (fun s => Except.ok ('h' :: s)))) (.vStruct []))
        = some (StructField.mk (Tag.mk (("T_HEX").data) none none)
            (.tStruct (("envconf.Hex").data) (some (fun s => Except.ok ('h' :: s)))) (.vStruct []),
            some (inFieldMsg (("T_HEX").data) structFieldsMsg))) :=
  c2_custom_delegation New jdStub
    (fun k => if k = (("T_HEX").data) then (("cafe").data) else [])
    0 (Tag.mk (("T_HEX").data) none none) (.vStruct []) (("envconf.Hex").data)
    (fun s => Except.ok ('h' :: s)) (("cafe").data)
    (by decide) rfl (by decide) (by decide) (by decide)

/-- Helper: inversion of a successful step of the binding pass on a
nonempty field list. -/
theorem parseFields_cons_ok (p : Parser) (jd : List Char → Except (List Char) (List Char))
    (env : List Char → List Char) (fuel : Nat) (f : StructField) (rest : List StructField)
    (l : List StructField)
    (h : parseFields p jd env fuel (f :: rest) = some (l, none)) :
    ∃ f1 rest1, parseField p jd env fuel f = some (f1, none) ∧
      parseFields p jd env fuel rest = some (rest1, none) ∧ l = f1 :: rest1 := by
  cases hf : parseField p jd env fuel f with
  | none => simp [parseFields, hf] at h
  | some pr =>
    obtain ⟨f1, oe⟩ := pr
    cases oe with
    | some e => simp [parseFields, hf] at h
    | none =>
      cases hr : parseFields p jd env fuel rest with
      | none => simp [parseFields, hf, hr] at h
      | some pr2 =>
        obtain ⟨rest1, oe2⟩ := pr2
        cases oe2 with
        | some e2 => simp [parseFields, hf, hr] at h
        | none =>
          simp [parseFields, hf, hr] at h
          exact ⟨f1, rest1, rfl, rfl, h.symm⟩

/-- Helper: a pass over a prefix of fields that all bind, followed by a
failing field, stops at the failure, keeps the new values of the prefix
and leaves the suffix untouched. -/
theorem parseFields_append_fail (p : Parser) (jd : List Char → Except (List Char) (List Char))
    (env : List Char → List Char) (fuel : Nat) :
    ∀ (fs1 fs1' : List StructField) (f f' : StructField) (e : List Char)
      (fs2 : List StructField),
      parseFields p jd env fuel fs1 = some (fs1', none) →
      parseField p jd env fuel f = some (f', some e) →
      parseFields p jd env fuel (fs1 ++ f :: fs2) = some (fs1' ++ f' :: fs2, some e)
  | [], fs1', f, f', e, fs2, h1, hf => by
    simp [parseFields] at h1
    subst h1
    simp [parseFields, hf]
  | g :: gs, fs1', f, f', e, fs2, h1, hf => by
    obtain ⟨g1, rest1, hg, hr, hl⟩ := parseFields_cons_ok p jd env fuel g gs fs1' h1
    subst hl
    have ih := parseFields_append_fail p jd env fuel gs rest1 f f' e fs2 hr hf
    simp [parseFields, hg, ih]

/-- Claim C9: the binding pass processes fields in declaration order and
stops at the first failing field; the fields before it keep the values
just assigned, the failing field is left as its own processing left it,
and the fields after it are untouched. -/
theorem c9_fail_fast (p : Parser) (jd : List Char → Except (List Char) (List Char))
    (env : List Char → List Char) (fuel : Nat) (fs1 fs1' : List StructField)
    (f f' : StructField) (e : List Char) (fs2 : List StructField)
    (h1 : parseFields p jd env fuel fs1 = some (fs1', none))
    (hf : parseField p jd env fuel f = some (f', some e)) :
    parseFields p jd env fuel (fs1 ++ f :: fs2) = some (fs1' ++ f' :: fs2, some e) :=
  parseFields_append_fail p jd env fuel fs1 fs1' f f' e fs2 h1 hf

/-- Witness for claim C9: the first field binds, the second fails for a
missing required value, and the third keeps its prior value. -/
theorem c9_fail_fast_witness :
    parseFields New jdStub (fun k => if k = (("T_A").data) then (("x").data) else []) 1
        [StructField.mk (Tag.mk (("T_A").data) none none) .tString (.vString []),
         StructField.mk (Tag.mk (("T_B").data) none none) .tString (.vString []),
         StructField.mk (Tag.mk (("T_C").data) none none) .tString (.vString (("old").data))]
      = some ([StructField.mk (Tag.mk (("T_A").data) none none) .tString (.vString (("x").data)),
               StructField.mk (Tag.mk (("T_B").data) none none) .tString (.vString []),
               StructField.mk (Tag.mk (("T_C").data) none none) .tString
                 (.vString (("old").data))],
          some (requiredMsg (Tag.mk (("T_B").data) none none))) :=
  c9_fail_fast New jdStub (fun k => if k = (("T_A").data) then (("x").data) else []) 1
    [StructField.mk (Tag.mk (("T_A").data) none none) .tString (.vString [])]
    [StructField.mk (Tag.mk (("T_A").data) none none) .tString (.vString (("x").data))]
    (StructField.mk (Tag.mk (("T_B").data) none none) .tString (.vString []))
    (StructField.mk (Tag.mk (("T_B").data) none none) .tString (.vString []))
    (requiredMsg (Tag.mk (("T_B").data) none none))
    [StructField.mk (Tag.mk (("T_C").data) none none) .tString (.vString (("old").data))]
    rfl rfl

/-- Claim C10: a field typed as a pointer to a non-struct element, bound
to a present value, is first overwritten with a pointer to a freshly
allocated zero element and then fails with the unsupported-type error
whose type shows two stars, since the address handed to SetFromString is
that of the pointer field itself; consequently such a field can never
bind successfully. -/
theorem c10_pointer_nonstruct (p : Parser)
    (jd : List Char → Except (List Char) (List Char)) (env : List Char → List Char)
    (n : Nat) (tag : Tag) (val : Value) (elem : GoType) (s : List Char)
    (henv : tag.env ≠ []) (hs : env tag.env = s) (hne : s ≠ [])
    (hesc : s.take 2 ≠ ['\\', '!']) (hm : matchMarker s = none)
    (hns : isStructKind elem = false) :
    parseField p jd env (n + 1) (StructField.mk tag (.tPtr elem) val)
      = some (StructField.mk tag (.tPtr elem) (.vPtr (some (zeroValue elem))),
          some (inFieldMsg tag.env ((("unsupported type *").data) ++ typeName (.tPtr elem)))) ∧
    (∀ f1, parseField p jd env (n + 1) (StructField.mk tag (.tPtr elem) val)
        = some (f1, none) → False) := by
  have ht := translateF_plain p n s hesc hm
  have hmain : parseField p jd env (n + 1) (StructField.mk tag (.tPtr elem) val)
      = some (StructField.mk tag (.tPtr elem) (.vPtr (some (zeroValue elem))),
          some (inFieldMsg tag.env ((("unsupported type *").data) ++ typeName (.tPtr elem)))) := by
    cases elem with
    | tStruct sn sf => simp [isStructKind] at hns
    | tString => simp [parseField, henv, hs, hne, bindField, ht, isStructKind, SetFromString]
    | tBool => simp [parseField, henv, hs, hne, bindField, ht, isStructKind, SetFromString]
    | tStringSlice => simp [parseField, henv, hs, hne, bindField, ht, isStructKind, SetFromString]
    | tCustom cn cf => simp [parseField, henv, hs, hne, bindField, ht, isStructKind, SetFromString]
    | tPtr e2 => simp [parseField, henv, hs, hne, bindField, ht, isStructKind, SetFromString]
    | tOther nm => simp [parseField, henv, hs, hne, bindField, ht, isStructKind, SetFromString]
  refine ⟨hmain, fun f1 h => ?_⟩
  have h2 := hmain.symm.trans h
  simp at h2

/-- Witness for claim C10 on a field of pointer-to-text type: the field is
overwritten with a fresh allocation and the pass fails with the
double-starred unsupported-type message. -/
theorem c10_pointer_nonstruct_witness :
    parseField New jdStub (fun k => if k = (("T_PTR").data) then (("x").data) else []) 1
        (StructField.mk (Tag.mk (("T_PTR").data) none none) (.tPtr .tString) (.vPtr none))
      = some (StructField.mk (Tag.mk (("T_PTR").data) none none) (.tPtr .tString)
            (.vPtr (some (.vString []))),
          some (inFieldMsg (("T_PTR").data) (("unsupported type **string").data))) :=
  (c10_pointer_nonstruct New jdStub
    (fun k => if k = (("T_PTR").data) then (("x").data) else [])
    0 (Tag.mk (("T_PTR").data) none none) (.vPtr none) .tString (("x").data)
    (by decide) rfl (by decide) (by decide) (by decide) rfl).1
